import Mathlib

/-!
Shallow embedding of the crumb-authenticated quote backend (back.js / the
unnamed server file).  Numbers carried by upstream JSON are modelled as
rationals; nullable JSON number fields as `Option ℚ` (with `none` standing
for a null or absent field); JavaScript truthiness of such a field holds
exactly when the field is present and non-zero.  The token variables
`crumb` and `cookieStr` are nullable strings, and a JavaScript string is
falsy exactly when it is null or empty.
-/

namespace MacroTrace

/-- Truthiness of a nullable JS number: present and non-zero. -/
def jsTruthy (o : Option ℚ) : Bool :=
  match o with
  | some q => decide (q ≠ 0)
  | none => false

/-- Falsiness of a nullable JS string: null or empty (`!crumb` in the source). -/
def strFalsy (o : Option String) : Bool :=
  match o with
  | some s => s.isEmpty
  | none => true

/-- Fields of `json.chart.result[0].meta` that the server reads. -/
structure ChartMeta where
  regularMarketPrice : ℚ
  chartPreviousClose : Option ℚ
  previousClose : Option ℚ
  regularMarketDayHigh : Option ℚ
  regularMarketDayLow : Option ℚ
deriving DecidableEq

/-- Fields of `json.chart.result[0].indicators.quote[0]`.  The JS field
`open` is a Lean keyword, so it is called `opens` here.  An outer `none`
models an absent array; an inner `none` models a null element. -/
structure QuoteIndicators where
  opens : Option (List (Option ℚ))
  high : Option (List (Option ℚ))
  low : Option (List (Option ℚ))
  close : Option (List (Option ℚ))
deriving DecidableEq

/-- The record produced by a successful `fetchQuote`.  `high` is a
`WithBot ℚ` because `Math.max()` of an empty spread is negative infinity;
dually `low` is a `WithTop ℚ`. -/
structure QuoteRecord where
  price : ℚ
  change : ℚ
  changePercent : ℚ
  high : WithBot ℚ
  low : WithTop ℚ
  opens : Option ℚ
  previousClose : ℚ
  isUp : Bool
  timestamp : String
deriving DecidableEq

/-- JS `meta.chartPreviousClose || meta.previousClose || meta.regularMarketPrice`:
the first TRUTHY (non-null, non-zero) value wins. -/
def prevCloseOf (meta : ChartMeta) : ℚ :=
  if jsTruthy meta.chartPreviousClose then meta.chartPreviousClose.getD 0
  else if jsTruthy meta.previousClose then meta.previousClose.getD 0
  else meta.regularMarketPrice

/-- JS `arr.filter(Boolean)` on an array of nullable numbers: keep the
truthy (non-null, non-zero) elements. -/
def filterBoolean (l : List (Option ℚ)) : List ℚ :=
  l.filterMap (fun o =>
    match o with
    | some q => if q = 0 then none else some q
    | none => none)

/-- JS `Math.max(...l)`: bottom (negative infinity) on the empty list. -/
def jsMathMax (l : List ℚ) : WithBot ℚ :=
  match l.max? with
  | some m => (m : WithBot ℚ)
  | none => ⊥

/-- JS `Math.min(...l)`: top (positive infinity) on the empty list. -/
def jsMathMin (l : List ℚ) : WithTop ℚ :=
  match l.min? with
  | some m => (m : WithTop ℚ)
  | none => ⊤

/-- The object literal returned by `fetchQuote` on the success path,
built from the parsed chart payload; `now` is the wall-clock ISO string
of `new Date().toISOString()`. -/
def buildQuote (meta : ChartMeta) (quote : QuoteIndicators) (now : String) : QuoteRecord :=
  let prevClose := prevCloseOf meta
  { price := meta.regularMarketPrice
    change := meta.regularMarketPrice - prevClose
    changePercent := ((meta.regularMarketPrice - prevClose) / prevClose) * 100
    high :=
      if jsTruthy meta.regularMarketDayHigh then ((meta.regularMarketDayHigh.getD 0 : ℚ) : WithBot ℚ)
      else
        match quote.high with
        | some hs => jsMathMax (filterBoolean hs)
        | none => ((meta.regularMarketPrice : ℚ) : WithBot ℚ)
    low :=
      if jsTruthy meta.regularMarketDayLow then ((meta.regularMarketDayLow.getD 0 : ℚ) : WithTop ℚ)
      else
        match quote.low with
        | some ls => jsMathMin (filterBoolean ls)
        | none => ((meta.regularMarketPrice : ℚ) : WithTop ℚ)
    opens :=
      match quote.opens with
      | some os => (filterBoolean os).head?
      | none => some meta.regularMarketPrice
    previousClose := prevClose
    isUp := decide (meta.regularMarketPrice ≥ prevClose)
    timestamp := now }

/-- The module-level mutable pair `let crumb = null; let cookieStr = null`. -/
structure TokenStore where
  crumb : Option String
  cookieStr : Option String
deriving DecidableEq

/-- Upstream behaviour seen by one call of `initCrumb`:
`consent = none` models the consent fetch throwing; `consent = some cs`
gives the collected `Set-Cookie` values (the empty list when
`getSetCookie` is absent).  `crumbResult = none` models the crumb fetch
(or reading its text) throwing; `some (.error st)` a non-ok response with
status `st`; `some (.ok text)` an ok response whose body is `text`. -/
structure CrumbEnv where
  consent : Option (List String)
  crumbResult : Option (Except Nat String)

/-- JS `c.split(';')[0]`: the prefix of the header value before its
first semicolon, i.e. the characters taken while not a semicolon. -/
def cookieNameValue (c : String) : String :=
  String.mk (c.data.takeWhile fun ch => ch ≠ ';')

/-- JS `setCookies.map(c => c.split(';')[0]).join('; ')`. -/
def joinCookies (cs : List String) : String :=
  String.intercalate "; " (cs.map cookieNameValue)

/-- One call of `initCrumb`: returns the boolean result together with the
token store after the call.  Note that `cookieStr` is assigned as soon as
the consent step finishes, BEFORE the crumb request is attempted. -/
def initCrumb (env : CrumbEnv) (ts : TokenStore) : Bool × TokenStore :=
  match env.consent with
  | none => (false, ts)
  | some cs =>
    let ts1 : TokenStore := { ts with cookieStr := some (joinCookies cs) }
    match env.crumbResult with
    | none => (false, ts1)
    | some (Except.error _) => (false, ts1)
    | some (Except.ok text) => (true, { ts1 with crumb := some text })

/-- Parsed payload of one chart response, as far as the server reads it:
`timestamps` is `result.timestamp` (absent modelled as `none`). -/
structure ChartResult where
  meta : ChartMeta
  quote : QuoteIndicators
  timestamps : Option (List Nat)
deriving DecidableEq

/-- One HTTP answer of the chart endpoint: either the fetch itself threw,
or a response with a status and, when the body parses far enough to reach
`chart.result[0]`, its payload. -/
inductive ChartResp where
  | netThrow
  | httpResp (status : Nat) (body : Option ChartResult)
deriving DecidableEq

/-- JS `resp.ok`: status in the 200..299 range. -/
def respOk (status : Nat) : Bool :=
  decide (200 ≤ status) && decide (status < 300)

/-- Outcome of a `fetchQuote` run under bounded fuel: a value, a thrown
error message, or exhaustion of the fuel (the run would still be going). -/
inductive FetchOut where
  | ok (r : QuoteRecord)
  | err (msg : String)
  | diverge
deriving DecidableEq

/-- The opening token check of `fetchQuote` and `fetchHistory`
(`if (!crumb || !cookieStr) ...`): when a token part is falsy, run
`initCrumb` on the `ki`-th crumb environment; `Except.error` means the
acquisition failed and the caller throws
`Cannot acquire Yahoo Finance crumb`.  Returns the token store and the
updated initCrumb counter. -/
def ensureToken (crumbs : Nat → CrumbEnv) (ts : TokenStore) (ki : Nat) :
    Except (TokenStore × Nat) (TokenStore × Nat) :=
  if strFalsy ts.crumb || strFalsy ts.cookieStr then
    let r := initCrumb (crumbs ki) ts
    if r.1 then Except.ok (r.2, ki + 1) else Except.error (r.2, ki + 1)
  else Except.ok (ts, ki)

/-- The body of `fetchQuote` after the token check: issue one chart
request and dispatch on its status.  `Sum.inl` carries a final outcome
and token store; `Sum.inr ts` means a 401/403 was seen, `initCrumb` ran,
and the source recurses with store `ts`.  The counters `ci` (chart
requests) and `ki` (initCrumb calls) are threaded through. -/
def fetchQuoteStep (charts : Nat → ChartResp) (crumbs : Nat → CrumbEnv) (now : String)
    (ts : TokenStore) (ci ki : Nat) :
    Sum (FetchOut × TokenStore) TokenStore × Nat × Nat :=
  match charts ci with
  | ChartResp.netThrow => (Sum.inl (FetchOut.err "fetch failed", ts), ci + 1, ki)
  | ChartResp.httpResp status body =>
    if status = 401 ∨ status = 403 then
      let r := initCrumb (crumbs ki) ts
      (Sum.inr r.2, ci + 1, ki + 1)
    else if !respOk status then
      (Sum.inl (FetchOut.err (s!"Yahoo API error {status}"), ts), ci + 1, ki)
    else
      match body with
      | none => (Sum.inl (FetchOut.err "malformed chart payload", ts), ci + 1, ki)
      | some cr => (Sum.inl (FetchOut.ok (buildQuote cr.meta cr.quote now), ts), ci + 1, ki)

/-- One run of `fetchQuote symbol`.  `charts i` is the answer of the
i-th chart request of the whole run, `crumbs k` the upstream behaviour of
the k-th `initCrumb` call, `now` the wall-clock ISO string.  `fuel`
bounds the recursion depth, which the source does not: running out of
fuel yields `FetchOut.diverge`.  Returns the outcome, the final token
store, and the final counters. -/
def fetchQuoteAux (charts : Nat → ChartResp) (crumbs : Nat → CrumbEnv) (now : String) :
    Nat → TokenStore → Nat → Nat → FetchOut × TokenStore × Nat × Nat
  | 0, ts, ci, ki => (FetchOut.diverge, ts, ci, ki)
  | fuel + 1, ts, ci, ki =>
    match ensureToken crumbs ts ki with
    | Except.error (ts1, ki1) =>
      (FetchOut.err "Cannot acquire Yahoo Finance crumb", ts1, ci, ki1)
    | Except.ok (ts1, ki1) =>
      match fetchQuoteStep charts crumbs now ts1 ci ki1 with
      | (Sum.inl (o, ts2), ci2, ki2) => (o, ts2, ci2, ki2)
      | (Sum.inr ts2, ci2, ki2) => fetchQuoteAux charts crumbs now fuel ts2 ci2 ki2

/-- Entry point matching the source: counters start at zero. -/
def fetchQuoteRun (charts : Nat → ChartResp) (crumbs : Nat → CrumbEnv) (now : String)
    (fuel : Nat) (ts : TokenStore) : FetchOut × TokenStore × Nat × Nat :=
  fetchQuoteAux charts crumbs now fuel ts 0 0

/-- JavaScript number-or-null-or-undefined, as produced by indexing the
`close` array: `jnull` is a stored null, `undef` an out-of-range access. -/
inductive JNum where
  | num (q : ℚ)
  | jnull
  | undef
deriving DecidableEq

/-- JS array indexing `prices[i]` on an array of nullable numbers:
out of range gives `undefined`, a stored null gives `null`. -/
def indexJS (l : List (Option ℚ)) (i : Nat) : JNum :=
  match l[i]? with
  | some (some q) => JNum.num q
  | some none => JNum.jnull
  | none => JNum.undef

/-- One element of the history array served by `fetchHistory`. -/
structure HistoryPoint where
  time : Nat
  price : JNum
deriving DecidableEq

/-- JS `timestamps.map((t, i) => ({time: t, price: prices[i]})).filter(h => h.price !== null)`:
note the filter removes only a stored null, not an `undefined` price. -/
def mkHistory (timestamps : List Nat) (prices : List (Option ℚ)) : List HistoryPoint :=
  ((timestamps.mapIdx fun i t => HistoryPoint.mk t (indexJS prices i)).filter
    fun h => h.price ≠ JNum.jnull)

/-- Modelled from the spec wording for comparison (not from the source):
zip the parallel arrays pointwise and drop any point whose price is null
OR missing. -/
def specHistory (timestamps : List Nat) (prices : List (Option ℚ)) : List HistoryPoint :=
  (timestamps.mapIdx fun i t => (t, prices[i]?)).filterMap fun p =>
    match p.2 with
    | some (some q) => some (HistoryPoint.mk p.1 (JNum.num q))
    | _ => none

/-- Values stored in the shared `NodeCache` instance: quote records under
the plain symbol key, history arrays under the `chart_..` keys. -/
inductive CacheVal where
  | quote (r : QuoteRecord)
  | history (h : List HistoryPoint)
deriving DecidableEq

/-- The cache, as a map from key to stored value and absolute expiry
time (insertion time plus TTL, in seconds). -/
def Cache : Type := String → Option (CacheVal × ℤ)

/-- NodeCache `get` at wall-clock time `now`: a hit needs the entry
present and unexpired. -/
def cacheGet (c : Cache) (key : String) (now : ℤ) : Option CacheVal :=
  match c key with
  | some (v, expiry) => if now ≤ expiry then some v else none
  | none => none

/-- NodeCache `set` with TTL `ttl` seconds at wall-clock time `now`. -/
def cacheSet (c : Cache) (key : String) (v : CacheVal) (ttl now : ℤ) : Cache :=
  fun k => if k = key then some (v, now + ttl) else c k

/-- The key string `` `chart_${symbol}_${range}` `` used by `fetchHistory`. -/
def historyKey (symbol range : String) : String :=
  "chart_" ++ symbol ++ "_" ++ range

/-- The range-to-interval mapping of `fetchHistory`. -/
def intervalFor (range : String) : String :=
  if range = "1d" then "5m" else if range = "5d" then "15m" else "1d"

/-- Result of one `fetchHistory` call: the returned value or thrown
message, the cache and token store after the call, and how many
`initCrumb` calls and chart requests were made. -/
structure HistResult where
  result : Except String CacheVal
  cache : Cache
  tokens : TokenStore
  initCalls : Nat
  chartCalls : Nat

/-- One call of `fetchHistory symbol range` at wall-clock time `now`:
consult the cache under `chart_{symbol}_{range}`; on a miss ensure a
token (no 401/403 retry here), issue one chart request, zip-and-filter
the arrays, and cache the result for 60 seconds before returning it. -/
def fetchHistory (crumbEnv : CrumbEnv) (chart : ChartResp) (symbol range : String)
    (now : ℤ) (cache : Cache) (ts : TokenStore) : HistResult :=
  let key := historyKey symbol range
  match cacheGet cache key now with
  | some v => ⟨Except.ok v, cache, ts, 0, 0⟩
  | none =>
    match ensureToken (fun _ => crumbEnv) ts 0 with
    | Except.error (ts1, k1) =>
      ⟨Except.error "Cannot acquire Yahoo Finance crumb", cache, ts1, k1, 0⟩
    | Except.ok (ts1, k1) =>
      match chart with
      | ChartResp.netThrow => ⟨Except.error "fetch failed", cache, ts1, k1, 1⟩
      | ChartResp.httpResp status body =>
        if !respOk status then
          ⟨Except.error (s!"Yahoo Chart API error {status}"), cache, ts1, k1, 1⟩
        else
          match body with
          | none => ⟨Except.error "malformed chart payload", cache, ts1, k1, 1⟩
          | some cr =>
            let timestamps := cr.timestamps.getD []
            let prices := (cr.quote.close).getD []
            let history := mkHistory timestamps prices
            ⟨Except.ok (CacheVal.history history),
              cacheSet cache key (CacheVal.history history) 60 now, ts1, k1, 1⟩

/-- Shape of `req.body` as far as the batch route reads it
(`req.body && req.body.symbols`, then `Array.isArray`). -/
inductive ReqBody where
  | noBody
  | bodyWithoutSymbols
  | symbolsNotArray
  | symbolsArr (l : List String)

/-- JS `req.body && req.body.symbols` followed by the `Array.isArray`
test: `some l` exactly when the body carries an array. -/
def bodySymbols : ReqBody → Option (List String)
  | ReqBody.symbolsArr l => some l
  | _ => none

/-- One value of the `results` object assembled by the batch route, or
of a route response body: a stored value or an `{error: msg}` object. -/
inductive BatchEntry where
  | val (v : CacheVal)
  | errObj (msg : String)
deriving DecidableEq

/-- The `results` object: a partial map from symbol to entry. -/
def BatchResults : Type := String → Option BatchEntry

/-- Assignment `results[symbol] = e`. -/
def setEntry (res : BatchResults) (symbol : String) (e : BatchEntry) : BatchResults :=
  fun k => if k = symbol then some e else res k

/-- One per-symbol task of the batch route, with the quote fetcher
abstracted to its result (`fetch symbol`): check the cache; on a hit
store the cached value in `results`; on a miss run the fetcher, caching a
success with the default 30-second TTL; a failure becomes an
`{error: msg}` entry.  The boolean reports whether the fetcher was
invoked. -/
def runBatchTask (fetch : String → Except String QuoteRecord) (now : ℤ)
    (cache : Cache) (res : BatchResults) (symbol : String) :
    Cache × BatchResults × Bool :=
  match cacheGet cache symbol now with
  | some v => (cache, setEntry res symbol (BatchEntry.val v), false)
  | none =>
    match fetch symbol with
    | Except.ok r =>
      (cacheSet cache symbol (CacheVal.quote r) 30 now,
        setEntry res symbol (BatchEntry.val (CacheVal.quote r)), true)
    | Except.error m => (cache, setEntry res symbol (BatchEntry.errObj m), true)

/-- State accumulated by the batch fan-out: the cache, the results map,
the number of fetcher invocations, and the number of cache reads. -/
structure BatchState where
  cache : Cache
  res : BatchResults
  fetches : Nat
  reads : Nat

/-- One task of the fan-out acting on the accumulated state; every task
performs exactly one cache read. -/
def batchStep (fetch : String → Except String QuoteRecord) (now : ℤ)
    (st : BatchState) (symbol : String) : BatchState :=
  let r := runBatchTask fetch now st.cache st.res symbol
  ⟨r.1, r.2.1, st.fetches + (if r.2.2 then 1 else 0), st.reads + 1⟩

/-- The whole fan-out of the batch route over the symbol list.  Tasks
only touch the cache and results at their own symbol key, so the
sequential fold is faithful to the cooperative concurrent execution. -/
def runBatch (fetch : String → Except String QuoteRecord) (now : ℤ)
    (cache : Cache) (symbols : List String) : BatchState :=
  symbols.foldl (batchStep fetch now) ⟨cache, fun _ => none, 0, 0⟩

/-- HTTP response body of a route: a JSON value or an `{error: msg}`
object, plus, for the batch route, the assembled results map. -/
inductive RouteBody where
  | val (v : CacheVal)
  | errObj (msg : String)
  | results (res : BatchResults)

/-- The `POST /api/batch` handler: validate the body, then fan out.
Returns the HTTP status, the response body, the cache after the call,
the number of fetcher invocations, and the number of cache reads. -/
def batchHandler (fetch : String → Except String QuoteRecord) (now : ℤ)
    (cache : Cache) (body : ReqBody) : Nat × RouteBody × Cache × Nat × Nat :=
  match bodySymbols body with
  | none => (400, RouteBody.errObj "symbols must be a non-empty array", cache, 0, 0)
  | some symbols =>
    if symbols.length = 0 then
      (400, RouteBody.errObj "symbols must be a non-empty array", cache, 0, 0)
    else
      let fanned := runBatch fetch now cache symbols
      (200, RouteBody.results fanned.res, fanned.cache, fanned.fetches, fanned.reads)

/-- The `GET /api/quote/:symbol` handler.  The quote fetch itself is
abstracted as `doFetch`, a function of the token store returning the
fetch outcome, the token store after the fetch, and the numbers of chart
requests and `initCrumb` calls it made; on a cache hit `doFetch` is never
invoked.  Returns status, body, cache, token store, chart requests,
initCrumb calls. -/
def quoteRoute (doFetch : TokenStore → Except String QuoteRecord × TokenStore × Nat × Nat)
    (symbol : String) (now : ℤ) (cache : Cache) (ts : TokenStore) :
    Nat × RouteBody × Cache × TokenStore × Nat × Nat :=
  match cacheGet cache symbol now with
  | some v => (200, RouteBody.val v, cache, ts, 0, 0)
  | none =>
    match doFetch ts with
    | (Except.ok r, ts1, f, k) =>
      (200, RouteBody.val (CacheVal.quote r),
        cacheSet cache symbol (CacheVal.quote r) 30 now, ts1, f, k)
    | (Except.error m, ts1, f, k) => (500, RouteBody.errObj m, cache, ts1, f, k)

/-! Concrete inputs used by witnesses and counterexamples. -/

/-- A token store whose two parts are truthy. -/
def tsGood : TokenStore := ⟨some "crumbval", some "A1=x"⟩

/-- A simple meta block: price 10, chart previous close 8. -/
def metaT : ChartMeta := ⟨10, some 8, none, none, none⟩

/-- An indicators block with every array absent. -/
def quoteT : QuoteIndicators := ⟨none, none, none, none⟩

/-- A simple parsed chart payload. -/
def crT : ChartResult := ⟨metaT, quoteT, none⟩

/-- An upstream whose chart endpoint always answers 200 with `crT`. -/
def chartsOk : Nat → ChartResp := fun _ => ChartResp.httpResp 200 (some crT)

/-- An upstream whose chart endpoint answers 401 once and then 200. -/
def charts401Once : Nat → ChartResp := fun i =>
  if i = 0 then ChartResp.httpResp 401 none else ChartResp.httpResp 200 (some crT)

/-- An upstream whose chart endpoint always answers 401. -/
def charts401 : Nat → ChartResp := fun _ => ChartResp.httpResp 401 none

/-- A crumb environment whose two steps always succeed. -/
def crumbsOk : Nat → CrumbEnv := fun _ => ⟨some ["a=1"], some (Except.ok "c2")⟩

/-! Lemmas about the success path of `fetchQuote`. -/

/-- Outcomes delivered by one chart dispatch that are successful records
always come from `buildQuote` applied to the parsed payload. -/
theorem fetchQuoteStep_ok {charts : Nat → ChartResp} {crumbs : Nat → CrumbEnv} {now : String}
    {ts : TokenStore} {ci ki : Nat}
    {p : Sum (FetchOut × TokenStore) TokenStore × Nat × Nat}
    (h : fetchQuoteStep charts crumbs now ts ci ki = p)
    {r : QuoteRecord} {ts2 : TokenStore} (h2 : p.1 = Sum.inl (FetchOut.ok r, ts2)) :
    ∃ cr : ChartResult, r = buildQuote cr.meta cr.quote now := by
  subst h
  unfold fetchQuoteStep at h2
  split at h2
  · simp at h2
  · split at h2
    · simp at h2
    · split at h2
      · simp at h2
      · split at h2
        · simp at h2
        · rename_i cr heq
          refine ⟨cr, ?_⟩
          simp at h2
          exact h2.1.symm

/-- Every successful outcome of the `fetchQuote` recursion comes from
`buildQuote` applied to some parsed payload. -/
theorem fetchQuoteAux_ok {charts : Nat → ChartResp} {crumbs : Nat → CrumbEnv} {now : String} :
    ∀ {fuel : Nat} {ts : TokenStore} {ci ki : Nat} {r : QuoteRecord},
      (fetchQuoteAux charts crumbs now fuel ts ci ki).1 = FetchOut.ok r →
      ∃ cr : ChartResult, r = buildQuote cr.meta cr.quote now := by
  intro fuel
  induction fuel with
  | zero => intro ts ci ki r h; simp [fetchQuoteAux] at h
  | succ n ih =>
    intro ts ci ki r h
    rw [fetchQuoteAux] at h
    split at h
    · simp at h
    · rename_i ts1ki1 _
      split at h
      · rename_i o ts2 ci2 ki2 hstep
        simp only at h
        subst h
        exact fetchQuoteStep_ok hstep rfl
      · exact ih h

/-- C1: every successful result of fetchQuote satisfies
isUp = (price >= previousClose) and
changePercent = (price - previousClose) / previousClose * 100,
where price and previousClose are the values carried in the record. -/
theorem fetchQuote_isUp_changePercent (charts : Nat → ChartResp) (crumbs : Nat → CrumbEnv)
    (now : String) (fuel : Nat) (ts : TokenStore) (r : QuoteRecord)
    (h : (fetchQuoteRun charts crumbs now fuel ts).1 = FetchOut.ok r) :
    r.isUp = decide (r.price ≥ r.previousClose) ∧
      r.changePercent = (r.price - r.previousClose) / r.previousClose * 100 := by
  obtain ⟨cr, rfl⟩ := fetchQuoteAux_ok h
  exact ⟨rfl, rfl⟩

/-- Witness for C1 at a concrete run. -/
theorem fetchQuote_isUp_changePercent_witness :
    (fetchQuoteRun chartsOk crumbsOk "t" 1 tsGood).1
        = FetchOut.ok (buildQuote metaT quoteT "t") ∧
      ((buildQuote metaT quoteT "t").isUp
          = decide ((buildQuote metaT quoteT "t").price ≥ (buildQuote metaT quoteT "t").previousClose) ∧
        (buildQuote metaT quoteT "t").changePercent
          = ((buildQuote metaT quoteT "t").price - (buildQuote metaT quoteT "t").previousClose)
              / (buildQuote metaT quoteT "t").previousClose * 100) :=
  ⟨rfl, fetchQuote_isUp_changePercent chartsOk crumbsOk "t" 1 tsGood _ rfl⟩

/-! Claim C2: atomicity of the token store update. -/

/-- A crumb environment whose consent step succeeds and whose crumb
request fails with status 500. -/
def crumbEnvFail : CrumbEnv := ⟨some ["a=1"], some (Except.error 500)⟩

/-- A token store holding an older acquired pair. -/
def tsOld : TokenStore := ⟨some "c0", some "s0"⟩

/-- Counterexample to C2: when the consent step succeeds and the crumb
request then fails, initCrumb reports failure but has already overwritten
cookieStr, so the pair is not left unchanged. -/
theorem initCrumb_not_atomic_cex :
    (initCrumb crumbEnvFail tsOld).1 = false ∧
      (initCrumb crumbEnvFail tsOld).2.cookieStr ≠ tsOld.cookieStr := by
  exact ⟨rfl, by decide⟩

/-- C2 amended: on failure the crumb field is left unchanged, but
cookieStr is overwritten as soon as the consent step succeeds (it is
`some (joinCookies cs)` whenever consent returned `cs`, whatever happened
afterwards); only when the whole acquisition succeeds are both fields
replaced with the new pair. -/
theorem initCrumb_crumb_preserved (env : CrumbEnv) (ts : TokenStore) :
    ((initCrumb env ts).1 = false → (initCrumb env ts).2.crumb = ts.crumb) ∧
      (∀ cs, env.consent = some cs →
        (initCrumb env ts).2.cookieStr = some (joinCookies cs)) ∧
      ((initCrumb env ts).1 = true → ∃ cs text,
        env.consent = some cs ∧ env.crumbResult = some (Except.ok text) ∧
          (initCrumb env ts).2 = ⟨some text, some (joinCookies cs)⟩) := by
  obtain ⟨consent, crumbResult⟩ := env
  cases consent with
  | none => refine ⟨fun _ => rfl, by simp [initCrumb], by simp [initCrumb]⟩
  | some cs =>
    cases crumbResult with
    | none => refine ⟨fun _ => rfl, by simp [initCrumb], by simp [initCrumb]⟩
    | some res =>
      cases res with
      | error st => refine ⟨fun _ => rfl, by simp [initCrumb], by simp [initCrumb]⟩
      | ok text =>
        refine ⟨by simp [initCrumb], by simp [initCrumb], fun _ => ⟨cs, text, rfl, rfl, rfl⟩⟩

/-- Witness for the amended C2 at a concrete failing acquisition. -/
theorem initCrumb_crumb_preserved_witness :
    (initCrumb crumbEnvFail tsOld).2.crumb = tsOld.crumb :=
  (initCrumb_crumb_preserved crumbEnvFail tsOld).1 rfl

/-! Claim C3: the previous-close fallback chain. -/

/-- A meta block whose chartPreviousClose is present but zero. -/
def metaZero : ChartMeta := ⟨10, some 0, some 5, none, none⟩

/-- Counterexample to C3: chartPreviousClose is present and non-null
(it is 0), yet the record's previousClose is taken from the next field,
because the JS fallback tests truthiness, not nullness. -/
theorem prevClose_fallback_cex :
    metaZero.chartPreviousClose = some 0 ∧
      (buildQuote metaZero quoteT "t").previousClose = 5 ∧ (5 : ℚ) ≠ 0 := by
  refine ⟨rfl, rfl, by norm_num⟩

/-- C3 amended: previousClose is the first TRUTHY (non-null and
non-zero) of chartPreviousClose, previousClose and the current price, in
that order; when neither close field is truthy the record degrades to
change = 0, and (for a non-zero price, where the JS division is exact)
changePercent = 0. -/
theorem prevClose_fallback (meta : ChartMeta) (quote : QuoteIndicators) (now : String) :
    (∀ c : ℚ, meta.chartPreviousClose = some c → c ≠ 0 →
      (buildQuote meta quote now).previousClose = c) ∧
      (jsTruthy meta.chartPreviousClose = false →
        ∀ p : ℚ, meta.previousClose = some p → p ≠ 0 →
          (buildQuote meta quote now).previousClose = p) ∧
      (jsTruthy meta.chartPreviousClose = false → jsTruthy meta.previousClose = false →
        (buildQuote meta quote now).previousClose = meta.regularMarketPrice ∧
          (buildQuote meta quote now).change = 0 ∧
          (buildQuote meta quote now).changePercent = 0) := by
  refine ⟨?_, ?_, ?_⟩
  · intro c hc hc0
    simp [buildQuote, prevCloseOf, jsTruthy, hc, hc0]
  · intro hfalse p hp hp0
    unfold buildQuote prevCloseOf
    rw [hfalse]
    simp [jsTruthy, hp, hp0]
  · intro h1 h2
    refine ⟨?_, ?_, ?_⟩ <;> simp [buildQuote, prevCloseOf, h1, h2]

/-- Witness for the amended C3: with chartPreviousClose = 8 present and
non-zero, the record carries previousClose = 8. -/
theorem prevClose_fallback_witness :
    (buildQuote metaT quoteT "t").previousClose = 8 :=
  (prevClose_fallback metaT quoteT "t").1 8 rfl (by norm_num)

/-! Claim C4: the history zip-and-filter. -/

/-- Counterexample to C4: when the close array is shorter than the
timestamp array, the out-of-range point carries an undefined price and is
KEPT, because the filter removes only prices strictly equal to null. -/
theorem mkHistory_missing_kept_cex :
    mkHistory [1, 2] [some 10] = [⟨1, JNum.num 10⟩, ⟨2, JNum.undef⟩] ∧
      mkHistory [1, 2] [some 10] ≠ [⟨1, JNum.num 10⟩] := by
  constructor
  · decide
  · decide

/-- C4 amended: on a successful response the arrays are zipped pointwise
in upstream order and exactly the null-priced points are dropped; this
matches the drop-null-or-missing description whenever the close array is
at least as long as the timestamp array, while a shorter close array
leaves the surplus points in place with an undefined price. -/
theorem mkHistory_eq_specHistory :
    ∀ (timestamps : List Nat) (prices : List (Option ℚ)),
      timestamps.length ≤ prices.length →
      mkHistory timestamps prices = specHistory timestamps prices := by
  intro timestamps
  induction timestamps with
  | nil => intro prices _; rfl
  | cons t ts ih =>
    intro prices hlen
    cases prices with
    | nil => simp at hlen
    | cons p ps =>
      have htail := ih ps (by simpa using hlen)
      cases p with
      | none =>
        simpa [mkHistory, specHistory, List.mapIdx_cons, indexJS, List.filter_cons] using htail
      | some q =>
        simpa [mkHistory, specHistory, List.mapIdx_cons, indexJS, List.filter_cons] using htail

/-- Witness for the amended C4 at the spec's example input. -/
theorem mkHistory_eq_specHistory_witness :
    mkHistory [1, 2, 3] [some 10, none, some 12]
      = specHistory [1, 2, 3] [some 10, none, some 12] :=
  mkHistory_eq_specHistory [1, 2, 3] [some 10, none, some 12] (by decide)

/-! Claim C6: batch input validation. -/

/-- C6: a missing, non-array or empty symbols field makes the batch
handler answer 400 with exactly the fixed error object, leaving the cache
untouched and performing no cache read, no fetch and (hence) no token
acquisition. -/
theorem batchHandler_validation (fetch : String → Except String QuoteRecord) (now : ℤ)
    (cache : Cache) (body : ReqBody)
    (h : bodySymbols body = none ∨ bodySymbols body = some []) :
    batchHandler fetch now cache body
      = (400, RouteBody.errObj "symbols must be a non-empty array", cache, 0, 0) := by
  rcases h with h | h
  · unfold batchHandler
    rw [h]
  · unfold batchHandler
    rw [h]
    rfl

/-- Witness for C6 at the body `{symbols: []}`. -/
theorem batchHandler_validation_witness :
    batchHandler (fun _ => Except.error "boom") 0 (fun _ => none) (ReqBody.symbolsArr [])
      = (400, RouteBody.errObj "symbols must be a non-empty array", (fun _ => none), 0, 0) :=
  batchHandler_validation (fun _ => Except.error "boom") 0 (fun _ => none)
    (ReqBody.symbolsArr []) (Or.inr rfl)

/-! Claim C10: a fresh cache hit serves the quote without any fetch. -/

/-- C10: when the quote cache entry for the symbol is present and
unexpired, the quote route answers 200 with the cached value, leaves both
the cache and the token store untouched and issues no chart request and
no initCrumb call; likewise the per-symbol batch task records the cached
value without invoking the fetcher and without writing the cache. -/
theorem cachedQuote_no_fetch (symbol : String) (now : ℤ) (cache : Cache) (v : CacheVal)
    (h : cacheGet cache symbol now = some v) :
    (∀ (doFetch : TokenStore → Except String QuoteRecord × TokenStore × Nat × Nat)
        (ts : TokenStore),
      quoteRoute doFetch symbol now cache ts = (200, RouteBody.val v, cache, ts, 0, 0)) ∧
      (∀ (fetch : String → Except String QuoteRecord) (res : BatchResults),
        runBatchTask fetch now cache res symbol
          = (cache, setEntry res symbol (BatchEntry.val v), false)) := by
  constructor
  · intro doFetch ts
    unfold quoteRoute
    rw [h]
  · intro fetch res
    unfold runBatchTask
    rw [h]

/-- A cache holding one unexpired quote record under the key "AAPL",
written at time 0 with the default 30-second TTL. -/
def cacheA : Cache :=
  cacheSet (fun _ => none) "AAPL" (CacheVal.quote (buildQuote metaT quoteT "t")) 30 0

/-- Witness for C10: reading "AAPL" from `cacheA` at time 10 is a hit
and the route leaves every piece of state unchanged. -/
theorem cachedQuote_no_fetch_witness :
    quoteRoute (fun ts => (Except.error "boom", ts, 1, 1)) "AAPL" 10 cacheA tsOld
      = (200, RouteBody.val (CacheVal.quote (buildQuote metaT quoteT "t")), cacheA, tsOld, 0, 0) :=
  (cachedQuote_no_fetch "AAPL" 10 cacheA (CacheVal.quote (buildQuote metaT quoteT "t"))
      (by rfl)).1 (fun ts => (Except.error "boom", ts, 1, 1)) tsOld

/-! Claim C5: per-symbol failure isolation in the batch fan-out. -/

/-- Reading back the key just written. -/
theorem setEntry_self (res : BatchResults) (symbol : String) (e : BatchEntry) :
    setEntry res symbol e symbol = some e := by
  simp [setEntry]

/-- Writing one key leaves every other key of the results map alone. -/
theorem setEntry_other {res : BatchResults} {symbol s : String} (h : s ≠ symbol)
    (e : BatchEntry) : setEntry res symbol e s = res s := by
  simp [setEntry, h]

/-- Writing one cache key leaves reads of every other key alone. -/
theorem cacheGet_cacheSet_other {c : Cache} {key s : String} (h : s ≠ key)
    (v : CacheVal) (ttl now t : ℤ) :
    cacheGet (cacheSet c key v ttl now) s t = cacheGet c s t := by
  simp [cacheGet, cacheSet, h]

/-- Reading back the cache key just written. -/
theorem cacheGet_cacheSet_self (c : Cache) (key : String) (v : CacheVal) (ttl now t : ℤ) :
    cacheGet (cacheSet c key v ttl now) key t
      = if t ≤ now + ttl then some v else none := by
  simp [cacheGet, cacheSet]

/-- The entry a task writes for its own symbol, as a function of the
cache it saw and its fetch result. -/
def taskEntry (fetch : String → Except String QuoteRecord) (now : ℤ)
    (c : Cache) (symbol : String) : BatchEntry :=
  match cacheGet c symbol now with
  | some v => BatchEntry.val v
  | none =>
    match fetch symbol with
    | Except.ok r => BatchEntry.val (CacheVal.quote r)
    | Except.error m => BatchEntry.errObj m

/-- A task always records an entry for its own symbol. -/
theorem batchStep_res_self (fetch : String → Except String QuoteRecord) (now : ℤ)
    (st : BatchState) (y : String) :
    (batchStep fetch now st y).res y = some (taskEntry fetch now st.cache y) := by
  unfold batchStep runBatchTask taskEntry
  split
  · exact setEntry_self ..
  · split
    · exact setEntry_self ..
    · exact setEntry_self ..

/-- A task leaves the result entries of other symbols alone. -/
theorem batchStep_res_other {fetch : String → Except String QuoteRecord} {now : ℤ}
    {st : BatchState} {y s : String} (h : s ≠ y) :
    (batchStep fetch now st y).res s = st.res s := by
  unfold batchStep runBatchTask
  split
  · exact setEntry_other h ..
  · split
    · exact setEntry_other h ..
    · exact setEntry_other h ..

/-- A task leaves cache reads of other symbols alone. -/
theorem batchStep_cache_other {fetch : String → Except String QuoteRecord} {now : ℤ}
    {st : BatchState} {y s : String} (h : s ≠ y) (t : ℤ) :
    cacheGet (batchStep fetch now st y).cache s t = cacheGet st.cache s t := by
  unfold batchStep runBatchTask
  split
  · rfl
  · split
    · exact cacheGet_cacheSet_other h ..
    · rfl

/-- A cache hit writes nothing to the cache. -/
theorem batchStep_cache_hit {fetch : String → Except String QuoteRecord} {now : ℤ}
    {st : BatchState} {y : String} {v : CacheVal}
    (hc : cacheGet st.cache y now = some v) :
    (batchStep fetch now st y).cache = st.cache := by
  simp [batchStep, runBatchTask, hc]

/-- A miss followed by a successful fetch caches the record for 30 s. -/
theorem batchStep_cache_miss_ok {fetch : String → Except String QuoteRecord} {now : ℤ}
    {st : BatchState} {y : String} {r : QuoteRecord}
    (hc : cacheGet st.cache y now = none) (hf : fetch y = Except.ok r) :
    (batchStep fetch now st y).cache = cacheSet st.cache y (CacheVal.quote r) 30 now := by
  simp [batchStep, runBatchTask, hc, hf]

/-- A miss followed by a failed fetch writes nothing to the cache. -/
theorem batchStep_cache_miss_error {fetch : String → Except String QuoteRecord} {now : ℤ}
    {st : BatchState} {y : String} {m : String}
    (hc : cacheGet st.cache y now = none) (hf : fetch y = Except.error m) :
    (batchStep fetch now st y).cache = st.cache := by
  simp [batchStep, runBatchTask, hc, hf]

/-- Every symbol of the list (or already present in the accumulated
results) ends up with an entry after the fold. -/
theorem foldl_batch_mem {fetch : String → Except String QuoteRecord} {now : ℤ} (s : String) :
    ∀ (l : List String) (st : BatchState),
      (s ∈ l ∨ ∃ e, st.res s = some e) →
      ∃ e, (l.foldl (batchStep fetch now) st).res s = some e := by
  intro l
  induction l with
  | nil =>
    intro st h
    rcases h with h | h
    · cases h
    · exact h
  | cons y l ih =>
    intro st h
    simp only [List.foldl_cons]
    by_cases hsy : s = y
    · subst hsy
      exact ih _ (Or.inr ⟨_, batchStep_res_self ..⟩)
    · rcases h with h | h
      · rcases List.mem_cons.mp h with h1 | h1
        · exact absurd h1 hsy
        · exact ih _ (Or.inl h1)
      · refine ih _ (Or.inr ?_)
        rw [batchStep_res_other hsy]
        exact h

/-- When the fetcher fails for `s` and the cache has no entry for `s`,
the fold leaves the cache empty at `s` and records the error object. -/
theorem foldl_batch_error {fetch : String → Except String QuoteRecord} {now : ℤ}
    {s m : String} (hf : fetch s = Except.error m) :
    ∀ (l : List String) (st : BatchState),
      cacheGet st.cache s now = none →
      (s ∈ l ∨ st.res s = some (BatchEntry.errObj m)) →
      cacheGet (l.foldl (batchStep fetch now) st).cache s now = none ∧
        (l.foldl (batchStep fetch now) st).res s = some (BatchEntry.errObj m) := by
  intro l
  induction l with
  | nil =>
    intro st hc h
    rcases h with h | h
    · cases h
    · exact ⟨hc, h⟩
  | cons y l ih =>
    intro st hc h
    simp only [List.foldl_cons]
    by_cases hsy : s = y
    · subst hsy
      refine ih _ ?_ (Or.inr ?_)
      · rw [batchStep_cache_miss_error hc hf]
        exact hc
      · rw [batchStep_res_self]
        unfold taskEntry
        rw [hc, hf]
    · have hcache : cacheGet (batchStep fetch now st y).cache s now = none := by
        rw [batchStep_cache_other hsy]
        exact hc
      rcases h with h | h
      · rcases List.mem_cons.mp h with h1 | h1
        · exact absurd h1 hsy
        · exact ih _ hcache (Or.inl h1)
      · refine ih _ hcache (Or.inr ?_)
        rw [batchStep_res_other hsy]
        exact h

/-- Two fan-outs whose fetchers agree at `s` produce the same entry at
`s`, whatever the fetchers do elsewhere. -/
theorem foldl_batch_agree {fetch fetch' : String → Except String QuoteRecord} {now : ℤ}
    {s : String} (hff : fetch s = fetch' s) :
    ∀ (l : List String) (st st' : BatchState),
      st.res s = st'.res s →
      cacheGet st.cache s now = cacheGet st'.cache s now →
      (l.foldl (batchStep fetch now) st).res s
        = (l.foldl (batchStep fetch' now) st').res s := by
  intro l
  induction l with
  | nil =>
    intro st st' hres _
    exact hres
  | cons y l ih =>
    intro st st' hres hc
    simp only [List.foldl_cons]
    by_cases hsy : s = y
    · subst hsy
      refine ih _ _ ?_ ?_
      · rw [batchStep_res_self, batchStep_res_self]
        unfold taskEntry
        rw [hc, hff]
      · cases hcv : cacheGet st.cache s now with
        | some v =>
          have hcv2 : cacheGet st'.cache s now = some v := by rw [← hc]; exact hcv
          rw [batchStep_cache_hit hcv, batchStep_cache_hit hcv2]
          exact hc
        | none =>
          have hcv2 : cacheGet st'.cache s now = none := by rw [← hc]; exact hcv
          cases hfy : fetch s with
          | ok r =>
            have hfy2 : fetch' s = Except.ok r := by rw [← hff]; exact hfy
            rw [batchStep_cache_miss_ok hcv hfy, batchStep_cache_miss_ok hcv2 hfy2,
              cacheGet_cacheSet_self, cacheGet_cacheSet_self]
          | error m =>
            have hfy2 : fetch' s = Except.error m := by rw [← hff]; exact hfy
            rw [batchStep_cache_miss_error hcv hfy, batchStep_cache_miss_error hcv2 hfy2]
            exact hc
    · refine ih _ _ ?_ ?_
      · rw [batchStep_res_other hsy, batchStep_res_other hsy]
        exact hres
      · rw [batchStep_cache_other hsy, batchStep_cache_other hsy]
        exact hc

/-- C5: in a non-empty batch, every input symbol gets an entry in the
assembled results map; a symbol whose fetch fails (with no cached value)
gets exactly the error object carrying the failure message; and the
entry of a symbol depends only on the fetcher's behaviour at that
symbol, so a sibling's failure neither aborts the batch nor changes any
other entry. -/
theorem batch_isolation (symbols : List String) (hne : symbols ≠ [])
    (fetch fetch' : String → Except String QuoteRecord) (now : ℤ) (cache : Cache)
    (s : String) (hs : s ∈ symbols) :
    (∃ e, (runBatch fetch now cache symbols).res s = some e) ∧
      (∀ m, cacheGet cache s now = none → fetch s = Except.error m →
        (runBatch fetch now cache symbols).res s = some (BatchEntry.errObj m)) ∧
      (fetch s = fetch' s →
        (runBatch fetch now cache symbols).res s
          = (runBatch fetch' now cache symbols).res s) := by
  refine ⟨?_, ?_, ?_⟩
  · exact foldl_batch_mem s symbols _ (Or.inl hs)
  · intro m hc hf
    exact (foldl_batch_error hf symbols _ hc (Or.inl hs)).2
  · intro hff
    exact foldl_batch_agree hff symbols _ _ rfl rfl

/-- The spec's stub fetcher: succeeds for GOOD, fails with boom for BAD. -/
def fetchGB : String → Except String QuoteRecord := fun s =>
  if s = "GOOD" then Except.ok (buildQuote metaT quoteT "t") else Except.error "boom"

/-- Witness for C5 at the spec's batch-isolation example. -/
theorem batch_isolation_witness :
    (runBatch fetchGB 0 (fun _ => none) ["GOOD", "BAD"]).res "BAD"
      = some (BatchEntry.errObj "boom") :=
  (batch_isolation ["GOOD", "BAD"] (by simp) fetchGB fetchGB 0 (fun _ => none) "BAD"
      (by simp)).2.1 "boom" rfl rfl

/-! Claim C7: one forced refresh and one retry after a 401/403. -/

/-- C7: starting with a present (truthy) token pair, when the first
chart request answers 401 or 403 and the second answers successfully
with a payload, and the forced re-acquisition leaves a truthy pair,
fetchQuote returns the record built from the second response after
exactly two chart requests and exactly one initCrumb call, the final
token store being the one the re-acquisition produced. -/
theorem fetchQuote_refresh_retry (charts : Nat → ChartResp) (crumbs : Nat → CrumbEnv)
    (now : String) (ts : TokenStore)
    (h1 : strFalsy ts.crumb = false) (h2 : strFalsy ts.cookieStr = false)
    (s0 : Nat) (b0 : Option ChartResult) (hc0 : charts 0 = ChartResp.httpResp s0 b0)
    (h401 : s0 = 401 ∨ s0 = 403)
    (hr1 : strFalsy ((initCrumb (crumbs 0) ts).2).crumb = false)
    (hr2 : strFalsy ((initCrumb (crumbs 0) ts).2).cookieStr = false)
    (s1 : Nat) (cr : ChartResult) (hc1 : charts 1 = ChartResp.httpResp s1 (some cr))
    (hok : respOk s1 = true) (fuel : Nat) (hfuel : 2 ≤ fuel) :
    fetchQuoteRun charts crumbs now fuel ts
      = (FetchOut.ok (buildQuote cr.meta cr.quote now), (initCrumb (crumbs 0) ts).2, 2, 1) := by
  obtain ⟨k, rfl⟩ : ∃ k, fuel = k + 2 := ⟨fuel - 2, by omega⟩
  have hs1 : ¬(s1 = 401 ∨ s1 = 403) := by
    simp [respOk] at hok
    omega
  have e1 : ensureToken crumbs ts 0 = Except.ok (ts, 0) := by
    simp [ensureToken, h1, h2]
  have e2 : fetchQuoteStep charts crumbs now ts 0 0
      = (Sum.inr (initCrumb (crumbs 0) ts).2, 1, 1) := by
    unfold fetchQuoteStep
    rw [hc0]
    rcases h401 with rfl | rfl <;> simp
  have e3 : ensureToken crumbs (initCrumb (crumbs 0) ts).2 1
      = Except.ok ((initCrumb (crumbs 0) ts).2, 1) := by
    simp [ensureToken, hr1, hr2]
  have e4 : fetchQuoteStep charts crumbs now (initCrumb (crumbs 0) ts).2 1 1
      = (Sum.inl (FetchOut.ok (buildQuote cr.meta cr.quote now),
          (initCrumb (crumbs 0) ts).2), 2, 1) := by
    unfold fetchQuoteStep
    rw [hc1]
    simp [hs1, hok]
  show fetchQuoteAux charts crumbs now (k + 1 + 1) ts 0 0 = _
  rw [fetchQuoteAux]
  simp only [e1]
  simp only [e2]
  rw [fetchQuoteAux]
  simp only [e3]
  simp only [e4]

/-- Witness for C7: the spec's stub upstream (401 then 200). -/
theorem fetchQuote_refresh_retry_witness :
    fetchQuoteRun charts401Once crumbsOk "t" 2 tsGood
      = (FetchOut.ok (buildQuote metaT quoteT "t"),
          (initCrumb (crumbsOk 0) tsGood).2, 2, 1) :=
  fetchQuote_refresh_retry charts401Once crumbsOk "t" tsGood rfl rfl 401 none rfl
    (Or.inl rfl) rfl rfl 200 crT rfl rfl 2 (le_refl 2)

/-! Claim C8: the retry recursion has no bound. -/

/-- C8: against an upstream whose chart endpoint answers 401 or 403 on
every attempt (and whose crumb handshake keeps producing truthy tokens),
fetchQuote re-acquires and recurses forever: for EVERY recursion bound
the bounded run is still going (it ends in neither a record nor an
error, so in particular no auth-failure error is ever produced). -/
theorem fetchQuote_unbounded_retry (charts : Nat → ChartResp) (crumbs : Nat → CrumbEnv)
    (now : String)
    (hch : ∀ i, ∃ b, charts i = ChartResp.httpResp 401 b ∨ charts i = ChartResp.httpResp 403 b)
    (hcr : ∀ k ts, strFalsy ((initCrumb (crumbs k) ts).2).crumb = false ∧
        strFalsy ((initCrumb (crumbs k) ts).2).cookieStr = false) :
    ∀ (fuel : Nat) (ts : TokenStore) (ci ki : Nat),
      strFalsy ts.crumb = false → strFalsy ts.cookieStr = false →
      (fetchQuoteAux charts crumbs now fuel ts ci ki).1 = FetchOut.diverge := by
  intro fuel
  induction fuel with
  | zero => intro ts ci ki _ _; rfl
  | succ n ih =>
    intro ts ci ki h1 h2
    have e1 : ensureToken crumbs ts ki = Except.ok (ts, ki) := by
      simp [ensureToken, h1, h2]
    obtain ⟨b, hb⟩ := hch ci
    have e2 : fetchQuoteStep charts crumbs now ts ci ki
        = (Sum.inr (initCrumb (crumbs ki) ts).2, ci + 1, ki + 1) := by
      unfold fetchQuoteStep
      rcases hb with hb | hb <;> rw [hb] <;> simp
    rw [fetchQuoteAux]
    simp only [e1]
    simp only [e2]
    exact ih _ _ _ (hcr ki ts).1 (hcr ki ts).2

/-- Witness for C8 at an always-401 upstream and a healthy handshake. -/
theorem fetchQuote_unbounded_retry_witness :
    (fetchQuoteAux charts401 crumbsOk "t" 5 tsGood 0 0).1 = FetchOut.diverge :=
  fetchQuote_unbounded_retry charts401 crumbsOk "t"
    (fun _ => ⟨none, Or.inl rfl⟩) (fun _ _ => ⟨rfl, rfl⟩) 5 tsGood 0 0 rfl rfl

/-! Claim C9: the fetchHistory read-through cache. -/

/-- Counterexample to C9: the cache key is `chart_{symbol}_{range}`,
not `history:{symbol}:{range}`, and the underscore separator lets two
distinct (symbol, range) pairs share one cache entry. -/
theorem historyKey_cex :
    historyKey "AAPL" "1d" = "chart_AAPL_1d" ∧
      historyKey "AAPL" "1d" ≠ "history:AAPL:1d" ∧
      historyKey "a_b" "c" = historyKey "a" "b_c" ∧
      ¬("a_b" = "a" ∧ "c" = "b_c") := by
  refine ⟨by decide, by decide, by decide, by decide⟩

/-- Lists written as prefix-separator-suffix with a separator absent
from both prefixes decompose uniquely. -/
theorem append_sep_inj :
    ∀ (a b r s : List Char), ('_' : Char) ∉ a → ('_' : Char) ∉ b →
      a ++ '_' :: r = b ++ '_' :: s → a = b ∧ r = s := by
  intro a
  induction a with
  | nil =>
    intro b r s _ hb h
    cases b with
    | nil => simpa using h
    | cons x xs =>
      simp only [List.nil_append, List.cons_append, List.cons.injEq] at h
      obtain ⟨h1, _⟩ := h
      subst h1
      exact absurd (List.mem_cons_self _ _) hb
  | cons x xs ih =>
    intro b r s ha hb h
    cases b with
    | nil =>
      simp only [List.cons_append, List.nil_append, List.cons.injEq] at h
      obtain ⟨h1, _⟩ := h
      subst h1
      exact absurd (List.mem_cons_self _ _) ha
    | cons y ys =>
      simp only [List.cons_append, List.cons.injEq] at h
      obtain ⟨rfl, h2⟩ := h
      have ha2 : ('_' : Char) ∉ xs := fun hm => ha (List.mem_cons_of_mem _ hm)
      have hb2 : ('_' : Char) ∉ ys := fun hm => hb (List.mem_cons_of_mem _ hm)
      obtain ⟨h3, h4⟩ := ih ys r s ha2 hb2 h2
      exact ⟨by rw [h3], h4⟩

/-- C9 amended: fetchHistory is read-through over the key
`chart_{symbol}_{range}`: a present unexpired entry is returned with no
initCrumb call and no upstream request; on a miss (with a usable token)
the zipped sequence is stored under that key with a 60-second TTL before
being returned; and the keys of distinct (symbol, range) pairs are
distinct provided the symbols contain no underscore. -/
theorem fetchHistory_readThrough (crumbEnv : CrumbEnv) (chart : ChartResp)
    (symbol range : String) (now : ℤ) (cache : Cache) (ts : TokenStore) :
    (∀ v, cacheGet cache (historyKey symbol range) now = some v →
      fetchHistory crumbEnv chart symbol range now cache ts
        = ⟨Except.ok v, cache, ts, 0, 0⟩) ∧
      (∀ (status : Nat) (cr : ChartResult),
        cacheGet cache (historyKey symbol range) now = none →
        strFalsy ts.crumb = false → strFalsy ts.cookieStr = false →
        chart = ChartResp.httpResp status (some cr) → respOk status = true →
        fetchHistory crumbEnv chart symbol range now cache ts
          = ⟨Except.ok (CacheVal.history
                (mkHistory (cr.timestamps.getD []) (cr.quote.close.getD []))),
              cacheSet cache (historyKey symbol range)
                (CacheVal.history
                  (mkHistory (cr.timestamps.getD []) (cr.quote.close.getD []))) 60 now,
              ts, 0, 1⟩) ∧
      (∀ s2 r2 : String, ('_' : Char) ∉ symbol.data → ('_' : Char) ∉ s2.data →
        historyKey symbol range = historyKey s2 r2 → symbol = s2 ∧ range = r2) := by
  refine ⟨?_, ?_, ?_⟩
  · intro v hv
    simp only [fetchHistory]
    rw [hv]
  · intro status cr hmiss h1 h2 hchart hok
    subst hchart
    have e1 : ensureToken (fun _ => crumbEnv) ts 0 = Except.ok (ts, 0) := by
      simp [ensureToken, h1, h2]
    simp only [fetchHistory]
    rw [hmiss]
    simp only [e1, hok]
    rfl
  · intro s2 r2 hs1 hs2 hkey
    have hdata := congrArg String.data hkey
    simp only [historyKey, String.data_append] at hdata
    simp only [List.append_assoc, List.singleton_append, List.cons_append,
      List.nil_append, List.cons.injEq, true_and] at hdata
    obtain ⟨hd1, hd2⟩ := append_sep_inj symbol.data s2.data range.data r2.data hs1 hs2 hdata
    exact ⟨String.ext hd1, String.ext hd2⟩

/-- A cache holding one unexpired history entry written at time 0 with
the 60-second TTL. -/
def cacheH : Cache :=
  cacheSet (fun _ => none) (historyKey "AAPL" "1d") (CacheVal.history []) 60 0

/-- Witness for the amended C9: a hit at time 10 returns the cached
sequence and touches nothing. -/
theorem fetchHistory_readThrough_witness :
    fetchHistory crumbEnvFail ChartResp.netThrow "AAPL" "1d" 10 cacheH tsOld
      = ⟨Except.ok (CacheVal.history []), cacheH, tsOld, 0, 0⟩ :=
  (fetchHistory_readThrough crumbEnvFail ChartResp.netThrow "AAPL" "1d" 10 cacheH
      tsOld).1 (CacheVal.history []) (by rfl)

end MacroTrace
